import Mathlib

/-!
Model of `src/api/index.ts` of bandwidth-hero-proxy2: a shallow embedding of the
event-style request handler (`handler`), its helpers (`assembleURL`,
`patchContentSecurity`, `stripMixedContentCSP`, `fetchData`, `compressData`) and
the JavaScript platform operations they rely on (object lookup/spread, `Headers`
normalization, `JSON.parse`, `new URL`, `parseInt`, base64, the one regex used).
JavaScript strings are Lean `String`s (lists of chars), byte buffers are
`List Nat`, thrown errors are `Except String` carrying the error message, and
the external collaborators from `src/util` (`shouldCompress`, `compress`) are
function parameters, since the spec treats them as black-box collaborators.
-/

/-- ASCII lowercasing of a single character, as performed by the `Headers`
name normalization and by case-insensitive regex matching. Uppercase letters
are mapped through a concrete alphabet table; other characters are fixed. -/
def lowerAlphabet : List Char := "abcdefghijklmnopqrstuvwxyz".data

def isDigitCh (c : Char) : Bool := 48 ≤ c.toNat && c.toNat ≤ 57

def isAlphaCh (c : Char) : Bool :=
  (65 ≤ c.toNat && c.toNat ≤ 90) || (97 ≤ c.toNat && c.toNat ≤ 122)

def asciiLowerChar (c : Char) : Char :=
  if 65 ≤ c.toNat && c.toNat ≤ 90 then lowerAlphabet.getD (c.toNat - 65) c else c

def asciiLower (s : String) : String := String.mk (s.data.map asciiLowerChar)


/-! ## JavaScript plain objects as association lists

A JavaScript object with string values is modelled as an association list with
unique keys in insertion order. `objLookup` is property access, `objSet` is
property assignment (overwriting keeps the original position, a fresh key is
appended), `objRemove` models the rest-destructuring that drops a property. -/

def objLookup : List (String × String) → String → Option String
  | [], _ => none
  | (k, v) :: t, n => if k = n then some v else objLookup t n

def objSet : List (String × String) → String → String → List (String × String)
  | [], n, v => [(n, v)]
  | (k, w) :: t, n, v => if k = n then (k, v) :: t else (k, w) :: objSet t n v

def objRemove : List (String × String) → String → List (String × String)
  | [], _ => []
  | (k, v) :: t, n => if k = n then objRemove t n else (k, v) :: objRemove t n

/-- Object-spread merge `\x7b...a, ...b\x7d`: the entries of `b` assigned over `a`. -/
def objMerge (a b : List (String × String)) : List (String × String) :=
  b.foldl (fun acc p => objSet acc p.1 p.2) a

/-! ## The WHATWG `Headers` constructor

`new Headers(init)` normalizes header names to ASCII lowercase and combines
duplicate names by joining their values with a comma and a space. (The real
iterator additionally sorts entries by name and validates name characters;
these are immaterial to every property stated below, which are insensitive to
entry order, and are omitted from the model.) -/

def headersAdd : List (String × String) → String → String → List (String × String)
  | [], n, v => [(n, v)]
  | (k, w) :: t, n, v =>
    if k = n then (k, w ++ ", " ++ v) :: t else (k, w) :: headersAdd t n v

def mkHeadersAux : List (String × String) → List (String × String) → List (String × String)
  | acc, [] => acc
  | acc, (k, v) :: t => mkHeadersAux (headersAdd acc (asciiLower k) v) t

def mkHeaders (hs : List (String × String)) : List (String × String) :=
  mkHeadersAux [] hs

/-- `headers.get(name)`: case-insensitive lookup on a normalized header map. -/
def headersGet (hs : List (String × String)) (name : String) : Option String :=
  objLookup (mkHeaders hs) (asciiLower name)

/-! ## Strings: substring test and first-occurrence literal replacement

`String.prototype.replace(searchString, replacement)` replaces only the first
occurrence of a literal search string and returns the input unchanged when the
search string does not occur. (The `$`-substitution patterns of JavaScript
replacement strings are not modelled; no replacement string used by the program
is intended to contain them.) -/

def leadsList : List Char → List Char → Bool
  | [], _ => true
  | _ :: _, [] => false
  | a :: as, b :: bs => a = b && leadsList as bs

def hasSubstr : List Char → List Char → Bool
  | [], needle => leadsList needle []
  | c :: t, needle => leadsList needle (c :: t) || hasSubstr t needle

def strContains (hay needle : String) : Bool := hasSubstr hay.data needle.data

def replaceFirstL : List Char → List Char → List Char → List Char
  | [], needle, repl => if leadsList needle [] then repl else []
  | c :: t, needle, repl =>
    if leadsList needle (c :: t) then repl ++ (c :: t).drop needle.length
    else c :: replaceFirstL t needle repl

def replaceFirstS (s needle repl : String) : String :=
  String.mk (replaceFirstL s.data needle.data repl.data)

/-! ## Base64 (`Buffer.prototype.toString("base64")`) -/

def b64Alphabet : List Char :=
  "ABCDEFGHIJKLMNOPQRSTUVWXYZabcdefghijklmnopqrstuvwxyz0123456789+/".data

def b64c (n : Nat) : Char := b64Alphabet.getD n 'A'

def base64Chunks : List Nat → List Char
  | [] => []
  | [a] => [b64c (a / 4), b64c (a % 4 * 16), '=', '=']
  | [a, b] => [b64c (a / 4), b64c (a % 4 * 16 + b / 16), b64c (b % 16 * 4), '=']
  | a :: b :: c :: t =>
    b64c (a / 4) :: b64c (a % 4 * 16 + b / 16) :: b64c (b % 16 * 4 + c / 64) ::
      b64c (c % 64) :: base64Chunks t

def base64S (bytes : List Nat) : String := String.mk (base64Chunks bytes)

/-! ## `parseInt(s, 10)` and JavaScript truthiness -/

def jsSpace (c : Char) : Bool :=
  c = ' ' || c = '\t' || c = '\n' || c = '\r' || c = '\x0b' || c = '\x0c'

def digitsVal (cs : List Char) : Nat :=
  cs.foldl (fun a c => a * 10 + (c.toNat - 48)) 0

/-- `parseInt(s, 10)`: skip leading whitespace, take an optional sign and the
longest leading run of decimal digits (trailing characters are ignored);
`none` models `NaN`. Values are exact integers; the double-precision rounding
of very large results is not modelled. -/
def parseIntJS (s : String) : Option Int :=
  match s.data.dropWhile jsSpace with
  | '-' :: t =>
    let ds := t.takeWhile isDigitCh
    if ds.isEmpty then none else some (-(digitsVal ds : Int))
  | '+' :: t =>
    let ds := t.takeWhile isDigitCh
    if ds.isEmpty then none else some ((digitsVal ds : Int))
  | t =>
    let ds := t.takeWhile isDigitCh
    if ds.isEmpty then none else some ((digitsVal ds : Int))

/-- Truthiness of `obj[key]` for an optional string: `undefined` and the empty
string are falsy, every other string is truthy. -/
def truthyOpt : Option String → Bool
  | none => false
  | some s => s != ""

/-- `x || d` on a number that may be `NaN` (`none`): `NaN`, `0` and `-0` are
falsy, so they yield the fallback. -/
def jsOrInt (v : Option Int) (d : Int) : Int :=
  match v with
  | none => d
  | some n => if n = 0 then d else n

/-! ## `JSON.parse`

Values as produced by `JSON.parse`. The model parses strings (with the common
escapes), `true`/`false`/`null`, integer numbers, arrays and objects, and
rejects trailing input. (Fractional/exponent number forms are not modelled: in
this program `JSON.parse` is only ever applied to the output of
`url.toString()`, which always carries a scheme and a colon and therefore never
parses as any JSON value, numbers included.) -/

inductive JsValue where
  | str (s : String)
  | num (n : Int)
  | jbool (b : Bool)
  | jnull
  | arr (xs : List JsValue)
  | obj (fields : List (String × JsValue))

def jsonWs (c : Char) : Bool := c = ' ' || c = '\t' || c = '\n' || c = '\r'

def skipWs (cs : List Char) : List Char := cs.dropWhile jsonWs

def isHexCh (c : Char) : Bool :=
  isDigitCh c || (97 ≤ c.toNat && c.toNat ≤ 102) || (65 ≤ c.toNat && c.toNat ≤ 70)

def hexVal (c : Char) : Nat :=
  if isDigitCh c then c.toNat - 48
  else if 97 ≤ c.toNat && c.toNat ≤ 102 then c.toNat - 87
  else c.toNat - 55

def parseJStrAux : List Char → List Char → Option (String × List Char)
  | [], _ => none
  | '"' :: r, acc => some (String.mk acc.reverse, r)
  | '\\' :: 'u' :: a :: b :: c :: d :: r, acc =>
    if isHexCh a && isHexCh b && isHexCh c && isHexCh d then
      parseJStrAux r (Char.ofNat (hexVal a * 4096 + hexVal b * 256 + hexVal c * 16 + hexVal d) :: acc)
    else none
  | '\\' :: e :: r, acc =>
    if e = '"' || e = '\\' || e = '/' then parseJStrAux r (e :: acc)
    else if e = 'n' then parseJStrAux r ('\n' :: acc)
    else if e = 't' then parseJStrAux r ('\t' :: acc)
    else if e = 'r' then parseJStrAux r ('\r' :: acc)
    else if e = 'b' then parseJStrAux r ('\x08' :: acc)
    else if e = 'f' then parseJStrAux r ('\x0c' :: acc)
    else none
  | c :: r, acc => if c.toNat < 32 then none else parseJStrAux r (c :: acc)

def parseJNum (cs : List Char) : Option (Nat × List Char) :=
  let ds := cs.takeWhile isDigitCh
  if ds.isEmpty then none else some (digitsVal ds, cs.drop ds.length)

mutual

def parseVal : Nat → List Char → Option (JsValue × List Char)
  | 0, _ => none
  | Nat.succ fuel, cs =>
    match cs with
    | '"' :: t =>
      match parseJStrAux t [] with
      | some (s, r) => some (JsValue.str s, r)
      | none => none
    | '[' :: t => parseArrStart fuel (skipWs t)
    | '{' :: t => parseObjStart fuel (skipWs t)
    | 't' :: 'r' :: 'u' :: 'e' :: r => some (JsValue.jbool true, r)
    | 'f' :: 'a' :: 'l' :: 's' :: 'e' :: r => some (JsValue.jbool false, r)
    | 'n' :: 'u' :: 'l' :: 'l' :: r => some (JsValue.jnull, r)
    | '-' :: t =>
      match parseJNum t with
      | some (n, r) => some (JsValue.num (-(n : Int)), r)
      | none => none
    | t =>
      match parseJNum t with
      | some (n, r) => some (JsValue.num (n : Int), r)
      | none => none

def parseArrStart : Nat → List Char → Option (JsValue × List Char)
  | 0, _ => none
  | Nat.succ fuel, cs =>
    match cs with
    | ']' :: r => some (JsValue.arr [], r)
    | _ =>
      match parseVal fuel cs with
      | some (v, r) => parseArrTail fuel [v] (skipWs r)
      | none => none

def parseArrTail : Nat → List JsValue → List Char → Option (JsValue × List Char)
  | 0, _, _ => none
  | Nat.succ fuel, acc, cs =>
    match cs with
    | ']' :: r => some (JsValue.arr acc.reverse, r)
    | ',' :: t =>
      match parseVal fuel (skipWs t) with
      | some (v, r) => parseArrTail fuel (v :: acc) (skipWs r)
      | none => none
    | _ => none

def parseObjStart : Nat → List Char → Option (JsValue × List Char)
  | 0, _ => none
  | Nat.succ fuel, cs =>
    match cs with
    | '}' :: r => some (JsValue.obj [], r)
    | _ =>
      match parseField fuel cs with
      | some (f, r) => parseObjTail fuel [f] (skipWs r)
      | none => none

def parseObjTail : Nat → List (String × JsValue) → List Char → Option (JsValue × List Char)
  | 0, _, _ => none
  | Nat.succ fuel, acc, cs =>
    match cs with
    | '}' :: r => some (JsValue.obj acc.reverse, r)
    | ',' :: t =>
      match parseField fuel (skipWs t) with
      | some (f, r) => parseObjTail fuel (f :: acc) (skipWs r)
      | none => none
    | _ => none

def parseField : Nat → List Char → Option ((String × JsValue) × List Char)
  | 0, _ => none
  | Nat.succ fuel, cs =>
    match cs with
    | '"' :: t =>
      match parseJStrAux t [] with
      | some (k, r) =>
        match skipWs r with
        | ':' :: r2 =>
          match parseVal fuel (skipWs r2) with
          | some (v, r3) => some ((k, v), r3)
          | none => none
        | _ => none
      | none => none
    | _ => none

end

def jsonParse (s : String) : Except Unit JsValue :=
  match parseVal (2 * s.data.length + 8) (skipWs s.data) with
  | some (v, rest) => if (skipWs rest).isEmpty then Except.ok v else Except.error ()
  | none => Except.error ()

/-! ## `String(value)` and `Array.prototype.join` -/

mutual

/-- JavaScript string conversion of a parsed JSON value. -/
def jsToStr : JsValue → String
  | JsValue.str s => s
  | JsValue.num n => toString n
  | JsValue.jbool b => if b then "true" else "false"
  | JsValue.jnull => "null"
  | JsValue.arr xs => joinJsvals "," xs
  | JsValue.obj _ => "[object Object]"

/-- `array.join(sep)`: `null`/`undefined` elements render as the empty string,
every other element via string conversion. -/
def joinJsvals : String → List JsValue → String
  | _, [] => ""
  | sep, x :: xs =>
    (match x with
     | JsValue.jnull => ""
     | v => jsToStr v) ++
    (match xs with
     | [] => ""
     | _ => sep ++ joinJsvals sep xs)

end

/-! ## `new URL`, `searchParams.append`, `url.toString()`

A model of the WHATWG URL parser sufficient for this program. A URL is a
scheme (first character must be an ASCII letter, then scheme characters up to
a colon, lowercased), then for the special schemes `http`/`https` an authority
form (leading slashes skipped, a non-empty host lowercased, then path, query
and fragment), and for any other scheme a path-and-query form. Parsing
failures are the `TypeError` thrown by the `URL` constructor, whose message is
`"Invalid URL"`. Omitted details that no call in this program depends on:
percent-encoding of path characters, dot-segment removal, IPv4/IPv6 host
canonicalization, userinfo and port validation. -/

structure URLRec where
  scheme : String
  host : Option String
  path : String
  query : Option String
  fragment : Option String
deriving DecidableEq

def isSchemeCh (c : Char) : Bool := isAlphaCh c || isDigitCh c || c = '+' || c = '-' || c = '.'

/-- Split a candidate scheme from the input: the characters before the first
colon, which must all be scheme characters. -/
def spanScheme : List Char → Option (List Char × List Char)
  | [] => none
  | c :: t =>
    if c = ':' then some ([], t)
    else if isSchemeCh c then
      match spanScheme t with
      | some (a, r) => some (c :: a, r)
      | none => none
    else none

def spanUntil (stop : Char → Bool) (cs : List Char) : List Char × List Char :=
  (cs.takeWhile (fun c => !(stop c)), cs.dropWhile (fun c => !(stop c)))

/-- Split `?query#fragment` / `#fragment` suffixes. -/
def splitQueryFrag (cs : List Char) : Option String × Option String :=
  match cs with
  | '?' :: qrest =>
    let (q, r) := spanUntil (fun c => c = '#') qrest
    match r with
    | '#' :: f => (some (String.mk q), some (String.mk f))
    | _ => (some (String.mk q), none)
  | '#' :: f => (none, some (String.mk f))
  | _ => (none, none)

def badHostCh (c : Char) : Bool :=
  c = ' ' || c = '\t' || c = '\n' || c = '\r' || c = '@' || c = '[' || c = ']' || c = '\\'

def urlParse (s : String) : Except String URLRec :=
  match s.data with
  | [] => Except.error "Invalid URL"
  | c :: _ =>
    if isAlphaCh c = false then Except.error "Invalid URL"
    else
      match spanScheme s.data with
      | none => Except.error "Invalid URL"
      | some (sch, rest) =>
        let scheme := asciiLower (String.mk sch)
        if scheme = "http" || scheme = "https" then
          let rest1 := rest.dropWhile (fun c => c = '/' || c = '\\')
          let (hostCs, rest2) := spanUntil (fun c => c = '/' || c = '?' || c = '#') rest1
          if hostCs.isEmpty || hostCs.any badHostCh then Except.error "Invalid URL"
          else
            let (pathCs, rest3) := spanUntil (fun c => c = '?' || c = '#') rest2
            let (q, f) := splitQueryFrag rest3
            Except.ok { scheme := scheme, host := some (asciiLower (String.mk hostCs)),
                        path := String.mk pathCs, query := q, fragment := f }
        else
          let (pathCs, rest2) := spanUntil (fun c => c = '?' || c = '#') rest
          let (q, f) := splitQueryFrag rest2
          Except.ok { scheme := scheme, host := none, path := String.mk pathCs,
                      query := q, fragment := f }

def urlToString (u : URLRec) : String :=
  u.scheme ++ ":" ++
  (match u.host with
   | some h => "//" ++ h ++ (if u.path = "" then "/" else u.path)
   | none => u.path) ++
  (match u.query with | some q => "?" ++ q | none => "") ++
  (match u.fragment with | some f => "#" ++ f | none => "")

def hexDigits : List Char := "0123456789ABCDEF".data

/-- `application/x-www-form-urlencoded` escaping of one character (modelled for
single-byte code points; multi-byte UTF-8 expansion is unused here). -/
def formEncodeChar (c : Char) : List Char :=
  if c = ' ' then ['+']
  else if isAlphaCh c || isDigitCh c || c = '*' || c = '-' || c = '.' || c = '_' then [c]
  else ['%', hexDigits.getD (c.toNat / 16 % 16) '0', hexDigits.getD (c.toNat % 16) '0']

def formEncode (s : String) : String :=
  String.mk (s.data.foldr (fun c acc => formEncodeChar c ++ acc) [])

/-- `url.searchParams.append(key, value)`. -/
def appendParam (u : URLRec) (k v : String) : URLRec :=
  let pair := formEncode k ++ "=" ++ formEncode v
  let newq : String :=
    match u.query with
    | none => pair
    | some q => if q = "" then pair else q ++ "&" ++ pair
  { u with query := some newq }

/-- Lines 43-51: build a `URL` from `baseURL` (the constructor throws on an
invalid URL), append every remaining query parameter, and serialize. -/
def assembleURL (baseURL : String) (queryParams : List (String × String)) :
    Except String String :=
  match urlParse baseURL with
  | Except.error e => Except.error e
  | Except.ok u =>
    Except.ok (urlToString (queryParams.foldl (fun acc p => appendParam acc p.1 p.2) u))

/-! ## The regex `/http:\/\/1\.1\.\d\.\d\/bmi\/(https?:\/\/)?/i` applied with
`String.prototype.replace` (first match only, replacement `"http://"`). -/

/-- Case-insensitive literal match: the pattern (given in lowercase) against
the head of the input; returns the remaining input on success. -/
def matchLit : List Char → List Char → Option (List Char)
  | [], s => some s
  | _ :: _, [] => none
  | p :: ps, c :: cs => if asciiLowerChar c = p then matchLit ps cs else none

/-- The optional group `(https?:\/\/)?`: greedy, so a leading `https://` or
`http://` (case-insensitive) is consumed when present. -/
def stripOptScheme (s : List Char) : List Char :=
  match matchLit "https://".data s with
  | some r => r
  | none =>
    match matchLit "http://".data s with
    | some r => r
    | none => s

/-- Attempt to match the whole regex at the head of the input; returns the
input remaining after the match. -/
def bmiMatchAt (s : List Char) : Option (List Char) :=
  match matchLit "http://1.1.".data s with
  | none => none
  | some s1 =>
    match s1 with
    | d1 :: dot :: d2 :: s2 =>
      if dot = '.' && isDigitCh d1 && isDigitCh d2 then
        match matchLit "/bmi/".data s2 with
        | none => none
        | some s3 => some (stripOptScheme s3)
      else none
    | _ => none

def bmiReplaceL : List Char → List Char
  | [] => []
  | c :: t =>
    match bmiMatchAt (c :: t) with
    | some rest => "http://".data ++ rest
    | none => c :: bmiReplaceL t

def bmiReplace (s : String) : String := String.mk (bmiReplaceL s.data)

/-! ## URL resolution (lines 61-76 of the handler) -/

/-- Lines 61-76: assemble the URL (the `if (rest)` guard is always taken,
since the rest object produced by destructuring is an object and hence truthy,
so `assembleURL` — and with it `new URL(url)` — always runs); then attempt
`JSON.parse` (its failure is swallowed); join a parsed array with `"&url="`;
finally apply the middlebox-prefix replacement. `url.replace` throws when the
parsed value is not a string. -/
def resolveURL (url : String) (rest : List (String × String)) : Except String String :=
  match assembleURL url rest with
  | Except.error e => Except.error e
  | Except.ok u1 =>
    let v : JsValue :=
      match jsonParse u1 with
      | Except.ok w => w
      | Except.error _ => JsValue.str u1
    let v2 : JsValue :=
      match v with
      | JsValue.arr xs => JsValue.str (joinJsvals "&url=" xs)
      | w => w
    match v2 with
    | JsValue.str s => Except.ok (bmiReplace s)
    | _ => Except.error "url.replace is not a function"

/-! ## Content-Security-Policy patching (lines 18-41) -/

def hostWithProtocol (host : String) : String := "https://" ++ host

/-- Line 39-41: remove (the first occurrence of) `block-all-mixed-content`. -/
def stripMixedContentCSP (CSPHeader : String) : String :=
  replaceFirstS CSPHeader "block-all-mixed-content" ""

/-- Lines 25-28: the value rewrite applied to a content-security-policy
header: strip `block-all-mixed-content`, then replace each directive token
with the token followed by the proxy host. -/
def cspPatchValue (host v : String) : String :=
  replaceFirstS
    (replaceFirstS
      (replaceFirstS (stripMixedContentCSP v) "img-src" ("img-src " ++ hostWithProtocol host))
      "default-src" ("default-src " ++ hostWithProtocol host))
    "connect-src" ("connect-src " ++ hostWithProtocol host)

def cspNameChars : List Char := "content-security-policy".data

/-- The `for (const [name, value] of new Headers(headers))` loop body writing
into the fresh `finalHeaders` object: names matching
`/content-security-policy/i` get the patched value, the rest pass through. -/
def headerLoop (host : String) : List (String × String) → List (String × String) → List (String × String)
  | acc, [] => acc
  | acc, (n, v) :: t =>
    headerLoop host
      (objSet acc n
        (if hasSubstr (asciiLower n).data cspNameChars then cspPatchValue host v else v)) t

/-- Lines 18-37. -/
def patchContentSecurity (headers : List (String × String)) (host : String) :
    List (String × String) :=
  headerLoop host [] (mkHeaders headers)

/-! ## Compression options (lines 78-90) -/

structure Options where
  useWebp : Bool
  grayscale : Bool
  quality : Int
deriving DecidableEq

/-- Lines 78-90: defaults `useWebp=false, grayscale=true, quality=40`,
overridden when the three `x-image-lite-*` request headers are all truthy. -/
def deriveOptions (hs : List (String × String)) : Options :=
  let bw := objLookup hs "x-image-lite-bw"
  let lvl := objLookup hs "x-image-lite-level"
  let jpg := objLookup hs "x-image-lite-jpeg"
  if truthyOpt bw && truthyOpt lvl && truthyOpt jpg then
    { useWebp := jpg == some "0"
      grayscale := bw != some "0"
      quality := jsOrInt (parseIntJS (lvl.getD "")) 40 }
  else { useWebp := false, grayscale := true, quality := 40 }

/-! ## The fetch and compression collaborators and the handler pipeline -/

/-- The upstream `fetch` response surface consumed by `fetchData`: `ok`,
`status`, the response headers, and the bytes yielded by `arrayBuffer()`. The
network call itself is a function parameter returning either this record or a
thrown failure (a rejected promise carrying an error message). -/
structure FetchResp where
  ok : Bool
  status : Nat
  headers : List (String × String)
  body : List Nat
deriving DecidableEq

/-- What `fetchData` returns (lines 148-156): on a non-ok status only a
`statusCode` field; otherwise the data, the content type and the response
headers. -/
inductive FetchedResult where
  | passthrough (statusCode : Nat)
  | fetched (data : List Nat) (ctype : String) (headers : List (String × String))
deriving DecidableEq

/-- Lines 148-156. `response.status || 302` turns a falsy status (0) into 302;
`response.headers.get("content-type") || ""` turns a missing header into the
empty string. Response headers (a `Headers` instance) are carried in
normalized form. -/
def fetchData (f : String → List (String × String) → Except String FetchResp)
    (url : String) (headers : List (String × String)) : Except String FetchedResult :=
  match f url headers with
  | Except.error e => Except.error e
  | Except.ok resp =>
    if resp.ok = false then
      Except.ok (FetchedResult.passthrough (if resp.status = 0 then 302 else resp.status))
    else
      Except.ok (FetchedResult.fetched resp.body
        ((headersGet resp.headers "content-type").getD "")
        (mkHeaders resp.headers))

/-- What the external `compress` collaborator resolves to:
`\x7b err, output, headers \x7d`. A rejected promise is the `Except.error` of
the collaborator function itself. -/
structure CompressResult where
  err : Option String
  output : List Nat
  headers : List (String × String)
deriving DecidableEq

/-- Lines 158-177: await the collaborator; a truthy `err` is re-thrown (after
a fixed diagnostic log), otherwise the output and the header overrides are
returned. -/
def compressData
    (c : List Nat → Bool → Bool → Int → Nat → Except String CompressResult)
    (data : List Nat) (useWebp grayscale : Bool) (quality : Int) (originalSize : Nat) :
    Except String (List Nat × List (String × String)) :=
  match c data useWebp grayscale quality originalSize with
  | Except.error e => Except.error e
  | Except.ok r =>
    match r.err with
    | some e => Except.error e
    | none => Except.ok (r.output, r.headers)

/-- The V8 `TypeError` message raised by `data.byteLength` when `fetchData`
returned a status-passthrough object, so that destructuring
`const \x7b data, ... \x7d` left `data` undefined. -/
def byteLengthTypeErrorMsg : String :=
  "Cannot read properties of undefined (reading \x27byteLength\x27)"

/-- `\x7b...headers\x7d` applied to a `Headers` instance: object spread copies
own enumerable properties, and a `Headers` instance keeps its entries in
internal state, not as own properties — so the spread contributes nothing. -/
def spreadHeadersInstance (_h : List (String × String)) : List (String × String) := []

/-- Which of the two success paths of the try block ran. -/
structure Trace where
  bypassed : Bool := false
  compressorCalled : Bool := false
deriving DecidableEq

/-- The event-style result object. -/
structure HandlerResponse where
  statusCode : Nat
  body : String
  headers : List (String × String) := []
  isBase64Encoded : Bool := false
deriving DecidableEq

/-- The body of the `try` block (lines 92-141), instrumented with a `Trace`
recording which path ran. `Except.error` is an exception propagating to the
`catch`. The compression path merges `\x7b ...headers, ...compressedHeaders \x7d`
where `headers` is a `Headers` instance, hence `spreadHeadersInstance`. -/
def tryBody (g : String → Nat → Bool → Bool)
    (f : String → List (String × String) → Except String FetchResp)
    (c : List Nat → Bool → Bool → Int → Nat → Except String CompressResult)
    (url : String) (reqHeaders : List (String × String)) (opts : Options)
    (host : String) : Except String HandlerResponse × Trace :=
  match fetchData f url reqHeaders with
  | Except.error e => (Except.error e, {})
  | Except.ok (FetchedResult.passthrough _) => (Except.error byteLengthTypeErrorMsg, {})
  | Except.ok (FetchedResult.fetched data ctype hdrs) =>
    let originalSize := data.length
    if g ctype originalSize opts.useWebp = false then
      (Except.ok { statusCode := 200, body := base64S data,
                   headers := patchContentSecurity hdrs host, isBase64Encoded := true },
       { bypassed := true })
    else
      match compressData c data opts.useWebp opts.grayscale opts.quality originalSize with
      | Except.error e => (Except.error e, { compressorCalled := true })
      | Except.ok (output, compressedHeaders) =>
        (Except.ok { statusCode := 200, body := base64S output, isBase64Encoded := true,
                     headers := patchContentSecurity
                       (objMerge (spreadHeadersInstance hdrs) compressedHeaders) host },
         { compressorCalled := true })

/-- Modelled from the spec: `src/util/pick` is not among the provided sources;
per the spec (§6) it selects a fixed subset of keys from a header mapping. -/
def pick (hs : List (String × String)) (keys : List String) : List (String × String) :=
  keys.foldr (fun k acc =>
    match objLookup hs k with
    | some v => (k, v) :: acc
    | none => acc) []

def forwardedHeaderNames : List String :=
  ["cookie", "dnt", "referer", "user-agent", "x-forwarded-for"]

/-- The inbound event: query-string parameters and request headers. -/
structure Event where
  queryStringParameters : List (String × String)
  headers : List (String × String)
deriving DecidableEq

/-- `event.headers.host` as passed to `patchContentSecurity`: when the header
is absent, JavaScript string concatenation renders `undefined` as the literal
text `undefined`. -/
def hostOf (ev : Event) : String := (objLookup ev.headers "host").getD "undefined"

/-- Lines 53-146, the event-style entry point. An `Except.error` result is an
exception escaping the handler (the URL-resolution steps of lines 61-76 run
before the `try` of line 92); errors raised inside the try block are caught
and mapped to a 500 response carrying the error message. -/
def handler (g : String → Nat → Bool → Bool)
    (f : String → List (String × String) → Except String FetchResp)
    (c : List Nat → Bool → Bool → Int → Nat → Except String CompressResult)
    (ev : Event) : Except String HandlerResponse :=
  let url? := objLookup ev.queryStringParameters "url"
  if truthyOpt url? = false then
    Except.ok { statusCode := 200, body := "bandwidth-hero-proxy" }
  else
    match resolveURL (url?.getD "") (objRemove ev.queryStringParameters "url") with
    | Except.error e => Except.error e
    | Except.ok url =>
      match (tryBody g f c url (pick ev.headers forwardedHeaderNames)
              (deriveOptions ev.headers) (hostOf ev)).1 with
      | Except.error e => Except.ok { statusCode := 500, body := e }
      | Except.ok r => Except.ok r

/-! ## Claim-side reference definitions and concrete instances -/

/-- The CSP value rewrite exactly as the specification words it: first remove
the literal substring `block-all-mixed-content`, then replace the directive
name tokens `img-src`, `default-src`, `connect-src` each with
the directive followed by `https://<host>`. -/
def cspRewriteSpec (host v : String) : String :=
  let v0 := replaceFirstS v "block-all-mixed-content" ""
  let v1 := replaceFirstS v0 "img-src" ("img-src https://" ++ host)
  let v2 := replaceFirstS v1 "default-src" ("default-src https://" ++ host)
  replaceFirstS v2 "connect-src" ("connect-src https://" ++ host)

/-- The option derivation as amended: the three `x-image-lite-*` headers must
be present with non-empty values (JavaScript truthiness); the quality is the
`parseInt` of the level header except that a failed parse or a parse yielding
`0` falls back to 40. -/
def optionsSpecAmended (hs : List (String × String)) : Options :=
  match objLookup hs "x-image-lite-bw", objLookup hs "x-image-lite-level",
      objLookup hs "x-image-lite-jpeg" with
  | some bw, some lvl, some jpg =>
    if bw = "" || lvl = "" || jpg = "" then
      { useWebp := false, grayscale := true, quality := 40 }
    else
      { useWebp := jpg == "0", grayscale := !(bw == "0"),
        quality :=
          match parseIntJS lvl with
          | none => 40
          | some n => if n = 0 then 40 else n }
  | _, _, _ => { useWebp := false, grayscale := true, quality := 40 }

/-- A compression gate that always accepts. -/
def gateTrue : String → Nat → Bool → Bool := fun _ _ _ => true

/-- A compression gate that always declines. -/
def gateFalse : String → Nat → Bool → Bool := fun _ _ _ => false

/-- A fetch whose promise rejects (network failure). -/
def fetchNetErr : String → List (String × String) → Except String FetchResp :=
  fun _ _ => Except.error "network unreachable"

/-- A fetch resolving with a non-success status (404). -/
def fetch404 : String → List (String × String) → Except String FetchResp :=
  fun _ _ => Except.ok { ok := false, status := 404, headers := [], body := [] }

/-- A 200 PNG response carrying an extra response header. -/
def imgResp : FetchResp :=
  { ok := true, status := 200,
    headers := [("X-Orig", "1"), ("Content-Type", "image/png")], body := [1, 2, 3] }

/-- A fetch resolving with `imgResp`. -/
def fetchImg : String → List (String × String) → Except String FetchResp :=
  fun _ _ => Except.ok imgResp

/-- The default option set. -/
def opts40 : Options := { useWebp := false, grayscale := true, quality := 40 }

/-- A compressor that is never expected to run. -/
def compressNone : List Nat → Bool → Bool → Int → Nat → Except String CompressResult :=
  fun _ _ _ _ _ => Except.error "no compressor"

/-- A compressor resolving with smaller output and a content-type override. -/
def compressWebp : List Nat → Bool → Bool → Int → Nat → Except String CompressResult :=
  fun _ _ _ _ _ => Except.ok
    { err := none, output := [9, 9], headers := [("content-type", "image/webp")] }

/-- An event with a plain valid image URL. -/
def evPlain : Event :=
  { queryStringParameters := [("url", "http://a.com/x")],
    headers := [("host", "proxy.example.com")] }

/-- An event whose `url` parameter is not a parseable URL. -/
def evInvalidURL : Event :=
  { queryStringParameters := [("url", "invalidurl")], headers := [] }

/-- The `url` parameter holding a JSON array of two URL fragments. -/
def jsonArrayURL : String := "[\"http://a.com/x\",\"http://b.com/y\"]"

/-- Request headers driving the option derivation with a level of `"0"`. -/
def levelZeroHeaders : List (String × String) :=
  [("x-image-lite-bw", "1"), ("x-image-lite-level", "0"), ("x-image-lite-jpeg", "0")]

/-- Request headers driving the option derivation with a level of `"500"`. -/
def levelBigHeaders : List (String × String) :=
  [("x-image-lite-bw", "1"), ("x-image-lite-level", "500"), ("x-image-lite-jpeg", "1")]

/-- A CSP value containing `block-all-mixed-content` and `img-src \x27self\x27`. -/
def cspSampleValue : String :=
  "default-src \x27self\x27; img-src \x27self\x27; block-all-mixed-content"

/-! ## General lemmas about the model -/

theorem asciiLowerChar_fix_of_mem (c : Char) (h : c ∈ lowerAlphabet) :
    asciiLowerChar c = c := by
  fin_cases h <;> rfl

theorem asciiLowerChar_mem_or_fix (c : Char) :
    asciiLowerChar c ∈ lowerAlphabet ∨ asciiLowerChar c = c := by
  unfold asciiLowerChar
  by_cases h : 65 ≤ c.toNat && c.toNat ≤ 90
  · left
    simp only [h, if_true]
    have hlt : c.toNat - 65 < lowerAlphabet.length := by
      have h2 : c.toNat ≤ 90 := by
        have := h
        simp only [Bool.and_eq_true, decide_eq_true_eq] at this
        exact this.2
      have : lowerAlphabet.length = 26 := by rfl
      omega
    rw [List.getD_eq_getElem lowerAlphabet c hlt]
    exact List.getElem_mem hlt
  · right
    simp [h]

theorem asciiLowerChar_idem (c : Char) :
    asciiLowerChar (asciiLowerChar c) = asciiLowerChar c := by
  rcases asciiLowerChar_mem_or_fix c with h | h
  · exact asciiLowerChar_fix_of_mem _ h
  · rw [h, h]

theorem asciiLower_idem (s : String) : asciiLower (asciiLower s) = asciiLower s := by
  unfold asciiLower
  apply congrArg String.mk
  rw [List.map_map]
  apply List.map_congr_left
  intro a _
  exact asciiLowerChar_idem a

theorem matchLit_self_append (p x : List Char) (h : ∀ c ∈ p, asciiLowerChar c = c) :
    matchLit p (p ++ x) = some x := by
  induction p with
  | nil => rfl
  | cons c ps ih =>
    have hc : asciiLowerChar c = c := h c (by simp)
    simp only [List.cons_append, matchLit, hc, if_true]
    exact ih (fun d hd => h d (by simp [hd]))

theorem bmiReplaceL_of_match (s r : List Char) (h : bmiMatchAt s = some r) :
    bmiReplaceL s = "http://".data ++ r := by
  cases s with
  | nil =>
    have hn : bmiMatchAt ([] : List Char) = none := rfl
    rw [hn] at h
    cases h
  | cons c t => simp only [bmiReplaceL, h]

theorem bmiMatchAt_pattern (d1 d2 : Char) (r : List Char)
    (hd1 : isDigitCh d1 = true) (hd2 : isDigitCh d2 = true) :
    bmiMatchAt ("http://1.1.".data ++ d1 :: '.' :: d2 :: ("/bmi/".data ++ r))
      = some (stripOptScheme r) := by
  have h1 := matchLit_self_append "http://1.1.".data
    (d1 :: '.' :: d2 :: ("/bmi/".data ++ r)) (by decide)
  have h2 : matchLit "/bmi/".data ('/' :: 'b' :: 'm' :: 'i' :: '/' :: r) = some r :=
    matchLit_self_append "/bmi/".data r (by decide)
  unfold bmiMatchAt
  rw [h1]
  simp [hd1, hd2, h2]

theorem objSet_eq_append (acc : List (String × String)) (n v : String)
    (h : ¬ n ∈ acc.map Prod.fst) : objSet acc n v = acc ++ [(n, v)] := by
  induction acc with
  | nil => rfl
  | cons p t ih =>
    obtain ⟨k, w⟩ := p
    simp only [List.map_cons, List.mem_cons, not_or] at h
    have hk : ¬(k = n) := fun hh => h.1 hh.symm
    simp [objSet, hk, ih h.2]

theorem headersAdd_eq_append (acc : List (String × String)) (n v : String)
    (h : ¬ n ∈ acc.map Prod.fst) : headersAdd acc n v = acc ++ [(n, v)] := by
  induction acc with
  | nil => rfl
  | cons p t ih =>
    obtain ⟨k, w⟩ := p
    simp only [List.map_cons, List.mem_cons, not_or] at h
    have hk : ¬(k = n) := fun hh => h.1 hh.symm
    simp [headersAdd, hk, ih h.2]

theorem mkHeadersAux_eq_lowerMap (hs : List (String × String)) : ∀ acc,
    (acc.map Prod.fst ++ hs.map (fun p => asciiLower p.1)).Nodup →
    mkHeadersAux acc hs = acc ++ hs.map (fun p => (asciiLower p.1, p.2)) := by
  induction hs with
  | nil =>
    intro acc _
    simp [mkHeadersAux]
  | cons p t ih =>
    intro acc h
    obtain ⟨k, v⟩ := p
    simp only [List.map_cons] at h
    have hnot : ¬ asciiLower k ∈ acc.map Prod.fst := by
      intro hmem
      rcases List.nodup_append.mp h with ⟨_, _, hdisj⟩
      exact hdisj hmem (List.mem_cons_self _ _)
    have hnd : ((acc ++ [(asciiLower k, v)]).map Prod.fst ++
        t.map (fun p => asciiLower p.1)).Nodup := by
      simp only [List.map_append, List.map_cons, List.map_nil, List.append_assoc,
        List.singleton_append]
      exact h
    rw [mkHeadersAux, headersAdd_eq_append acc _ v hnot, ih (acc ++ [(asciiLower k, v)]) hnd]
    simp

/-- On a header mapping whose lowercased names are pairwise distinct, the
`Headers` constructor just lowercases every name. -/
theorem mkHeaders_eq_lowerMap (hs : List (String × String))
    (h : (hs.map (fun p => asciiLower p.1)).Nodup) :
    mkHeaders hs = hs.map (fun p => (asciiLower p.1, p.2)) := by
  have := mkHeadersAux_eq_lowerMap hs [] (by simpa using h)
  simpa [mkHeaders] using this

theorem headerLoop_eq_map (host : String) (l : List (String × String)) : ∀ acc,
    (acc.map Prod.fst ++ l.map Prod.fst).Nodup →
    headerLoop host acc l = acc ++ l.map (fun p =>
      (p.1, if hasSubstr (asciiLower p.1).data cspNameChars
            then cspPatchValue host p.2 else p.2)) := by
  induction l with
  | nil =>
    intro acc _
    simp [headerLoop]
  | cons p t ih =>
    intro acc h
    obtain ⟨n, v⟩ := p
    simp only [List.map_cons] at h
    have hnot : ¬ n ∈ acc.map Prod.fst := by
      intro hmem
      rcases List.nodup_append.mp h with ⟨_, _, hdisj⟩
      exact hdisj hmem (List.mem_cons_self _ _)
    have hnd : ((acc ++ [(n, if hasSubstr (asciiLower n).data cspNameChars
        then cspPatchValue host v else v)]).map Prod.fst ++ t.map Prod.fst).Nodup := by
      simp only [List.map_append, List.map_cons, List.map_nil, List.append_assoc,
        List.singleton_append]
      exact h
    rw [headerLoop, objSet_eq_append acc _ _ hnot, ih _ hnd]
    simp

theorem headersAdd_key_mem (acc : List (String × String)) (n v k : String)
    (h : k ∈ (headersAdd acc n v).map Prod.fst) : k ∈ acc.map Prod.fst ∨ k = n := by
  induction acc with
  | nil =>
    right
    simpa [headersAdd] using h
  | cons p t ih =>
    obtain ⟨a, b⟩ := p
    by_cases hx : a = n
    · simp only [headersAdd, if_pos hx, List.map_cons, List.mem_cons] at h
      left
      simpa using h
    · simp only [headersAdd, if_neg hx, List.map_cons, List.mem_cons] at h
      rcases h with h | h
      · left
        simp [h]
      · rcases ih h with h' | h'
        · left
          simp [h']
        · right
          exact h'

theorem objSet_key_mem (acc : List (String × String)) (n v k : String)
    (h : k ∈ (objSet acc n v).map Prod.fst) : k ∈ acc.map Prod.fst ∨ k = n := by
  induction acc with
  | nil =>
    right
    simpa [objSet] using h
  | cons p t ih =>
    obtain ⟨a, b⟩ := p
    by_cases hx : a = n
    · simp only [objSet, if_pos hx, List.map_cons, List.mem_cons] at h
      left
      simpa using h
    · simp only [objSet, if_neg hx, List.map_cons, List.mem_cons] at h
      rcases h with h | h
      · left
        simp [h]
      · rcases ih h with h' | h'
        · left
          simp [h']
        · right
          exact h'

theorem mkHeadersAux_keys_lower (hs : List (String × String)) : ∀ acc k,
    (∀ k' ∈ acc.map Prod.fst, asciiLower k' = k') →
    k ∈ (mkHeadersAux acc hs).map Prod.fst → asciiLower k = k := by
  induction hs with
  | nil =>
    intro acc k hacc hk
    exact hacc k hk
  | cons p t ih =>
    intro acc k hacc hk
    obtain ⟨a, b⟩ := p
    refine ih (headersAdd acc (asciiLower a) b) k ?_ hk
    intro k' hk'
    rcases headersAdd_key_mem acc (asciiLower a) b k' hk' with h | h
    · exact hacc k' h
    · rw [h]
      exact asciiLower_idem a

theorem headerLoop_keys_lower (host : String) (l : List (String × String)) : ∀ acc k,
    (∀ k' ∈ acc.map Prod.fst, asciiLower k' = k') →
    (∀ k' ∈ l.map Prod.fst, asciiLower k' = k') →
    k ∈ (headerLoop host acc l).map Prod.fst → asciiLower k = k := by
  induction l with
  | nil =>
    intro acc k hacc _ hk
    exact hacc k hk
  | cons p t ih =>
    intro acc k hacc hl hk
    obtain ⟨n, v⟩ := p
    refine ih _ k ?_ (fun k' hk' => hl k' (by simp [hk'])) hk
    intro k' hk'
    rcases objSet_key_mem acc n _ k' hk' with h | h
    · exact hacc k' h
    · rw [h]
      exact hl n (by simp)

/-! ## The claims -/

/-- C1: the claim says a non-success upstream status is passed through as the
final response status with an empty body without raising. In the code,
`fetchData` does return a status-passthrough object, but the handler
destructures `data` out of it (leaving `data` undefined) and immediately
evaluates `data.byteLength`, which throws; the catch block turns this into a
500 response carrying the TypeError message — the upstream 404 never reaches
the response. -/
theorem C1_nonOkStatus_becomes_500 :
    handler gateFalse fetch404 compressNone evPlain
      = Except.ok { statusCode := 500, body := byteLengthTypeErrorMsg }
    ∧ fetchData fetch404 "http://a.com/x" [] = Except.ok (FetchedResult.passthrough 404) :=
  ⟨rfl, rfl⟩

/-- C2 counterexample: a failure raised during URL assembly is NOT caught and
converted to a 500 response: with a `url` parameter that the `URL` constructor
rejects, the handler itself raises (the URL-resolution steps run before the
`try` block). -/
theorem C2_assembly_error_escapes :
    handler gateFalse fetchNetErr compressNone evInvalidURL
      = Except.error "Invalid URL" := rfl

/-- C2 as amended: once URL resolution has succeeded, every failure raised in
the try block (outbound fetch, the byteLength access, the compression call) is
caught exactly once at the top level and converted into a response with status
500 and the failure's message as the body, and nothing else escapes: the
handler returns a response in every case. Failures raised during URL assembly
and normalization, by contrast, escape uncaught (see the counterexample). -/
theorem C2_try_block_catches
    (g : String → Nat → Bool → Bool)
    (f : String → List (String × String) → Except String FetchResp)
    (c : List Nat → Bool → Bool → Int → Nat → Except String CompressResult)
    (ev : Event) (u : String)
    (hurl : truthyOpt (objLookup ev.queryStringParameters "url") = true)
    (hres : resolveURL ((objLookup ev.queryStringParameters "url").getD "")
        (objRemove ev.queryStringParameters "url") = Except.ok u) :
    (∀ e, (tryBody g f c u (pick ev.headers forwardedHeaderNames)
            (deriveOptions ev.headers) (hostOf ev)).1 = Except.error e →
        handler g f c ev = Except.ok { statusCode := 500, body := e })
    ∧ (∀ r, (tryBody g f c u (pick ev.headers forwardedHeaderNames)
            (deriveOptions ev.headers) (hostOf ev)).1 = Except.ok r →
        handler g f c ev = Except.ok r) := by
  constructor
  · intro e he
    unfold handler
    simp [hurl, hres, he]
  · intro r hr
    unfold handler
    simp [hurl, hres, hr]

/-- C2 witness: a network failure of the outbound fetch is mapped to a 500
response carrying the failure's message. -/
theorem C2_try_block_catches_witness :
    truthyOpt (objLookup evPlain.queryStringParameters "url") = true ∧
    handler gateFalse fetchNetErr compressNone evPlain
      = Except.ok { statusCode := 500, body := "network unreachable" } :=
  ⟨rfl, (C2_try_block_catches gateFalse fetchNetErr compressNone evPlain
      "http://a.com/x" rfl rfl).1 "network unreachable" rfl⟩

/-- C3: the claim says the compression path's response headers include the
original fetched headers with the collaborator's overrides taking precedence.
In the code the merge `\x7b ...headers, ...compressedHeaders \x7d` spreads a
`Headers` instance, which contributes no entries, so the original fetched
headers are dropped entirely: the upstream `x-orig` header (second conjunct:
present in the fetched header map) is absent from the final response, whose
header mapping is exactly the patched collaborator overrides. -/
theorem C3_original_headers_dropped :
    handler gateTrue fetchImg compressWebp evPlain
      = Except.ok
          { statusCode := 200, body := "CQk=",
            headers := [("content-type", "image/webp")], isBase64Encoded := true }
    ∧ objLookup (mkHeaders [("X-Orig", "1"), ("Content-Type", "image/png")]) "x-orig"
      = some "1" :=
  ⟨rfl, rfl⟩

/-- C4: the claim says a `url` parameter holding a JSON array of two fragments
resolves to the fragments joined with `"&url="`. In the code the rest object
produced by destructuring is always truthy, so `assembleURL` — and with it
`new URL(url)` — runs on the raw parameter first and throws `Invalid URL` on
the JSON array text; the join (third conjunct: what it would have produced)
is never reached. -/
theorem C4_array_url_throws :
    resolveURL jsonArrayURL [] = Except.error "Invalid URL"
    ∧ jsonParse jsonArrayURL
      = Except.ok (JsValue.arr [JsValue.str "http://a.com/x", JsValue.str "http://b.com/y"])
    ∧ joinJsvals "&url=" [JsValue.str "http://a.com/x", JsValue.str "http://b.com/y"]
      = "http://a.com/x&url=http://b.com/y" :=
  ⟨rfl, rfl, rfl⟩

/-- C5: on a request whose fetch succeeded, if the Compression Gate returns
false then the final response is the bypass response — status 200, body the
base64 encoding of exactly the fetched bytes, `isBase64Encoded` set — the
result does not depend on the compression collaborator at all (it is never
invoked), and in general exactly one of the bypass path and the compression
path runs, never both (the trace flags are complementary). -/
theorem C5_bypass_exclusive
    (g : String → Nat → Bool → Bool)
    (f : String → List (String × String) → Except String FetchResp)
    (c c' : List Nat → Bool → Bool → Int → Nat → Except String CompressResult)
    (url : String) (rh : List (String × String)) (opts : Options) (host : String)
    (resp : FetchResp)
    (hf : f url rh = Except.ok resp) (hok : resp.ok = true) :
    (g ((headersGet resp.headers "content-type").getD "") resp.body.length opts.useWebp
        = false →
      tryBody g f c url rh opts host
        = (Except.ok
            { statusCode := 200, body := base64S resp.body,
              headers := patchContentSecurity (mkHeaders resp.headers) host,
              isBase64Encoded := true },
           { bypassed := true, compressorCalled := false })
      ∧ tryBody g f c' url rh opts host = tryBody g f c url rh opts host)
    ∧ (tryBody g f c url rh opts host).2.bypassed
      = !((tryBody g f c url rh opts host).2.compressorCalled) := by
  have hfd : fetchData f url rh = Except.ok (FetchedResult.fetched resp.body
      ((headersGet resp.headers "content-type").getD "") (mkHeaders resp.headers)) := by
    unfold fetchData
    rw [hf]
    simp [hok]
  constructor
  · intro hgate
    constructor
    · unfold tryBody
      rw [hfd]
      simp [hgate]
    · unfold tryBody
      rw [hfd]
      simp [hgate]
  · unfold tryBody
    rw [hfd]
    by_cases hg : g ((headersGet resp.headers "content-type").getD "")
        resp.body.length opts.useWebp = false
    · simp [hg]
    · simp only [hg, if_false]
      cases hc : compressData c resp.body opts.useWebp opts.grayscale opts.quality
          resp.body.length with
      | error e => simp [hc]
      | ok out => simp [hc]

/-- C5 witness: a concrete bypassed request — the gate declines, the body is
the base64 of the fetched bytes, both compressors give the same result, and
the trace flags are complementary. -/
theorem C5_bypass_exclusive_witness :
    (gateFalse ((headersGet imgResp.headers "content-type").getD "")
        imgResp.body.length opts40.useWebp = false →
      tryBody gateFalse fetchImg compressNone "http://a.com/x" [] opts40 "h"
        = (Except.ok
            { statusCode := 200, body := base64S imgResp.body,
              headers := patchContentSecurity (mkHeaders imgResp.headers) "h",
              isBase64Encoded := true },
           { bypassed := true, compressorCalled := false })
      ∧ tryBody gateFalse fetchImg compressWebp "http://a.com/x" [] opts40 "h"
        = tryBody gateFalse fetchImg compressNone "http://a.com/x" [] opts40 "h")
    ∧ (tryBody gateFalse fetchImg compressNone "http://a.com/x" [] opts40 "h").2.bypassed
      = !((tryBody gateFalse fetchImg compressNone "http://a.com/x" [] opts40 "h").2.compressorCalled) :=
  C5_bypass_exclusive gateFalse fetchImg compressNone compressWebp "http://a.com/x" []
    opts40 "h" imgResp rfl rfl

theorem cspPatchValue_eq_spec (host v : String) :
    cspPatchValue host v = cspRewriteSpec host v := rfl

/-- C6: for every header mapping (its names, being case-insensitive header
names, are pairwise distinct after lowercasing) and host, the Header Patcher
maps each entry whose name contains `content-security-policy`
(case-insensitively) to the spec's rewrite — strip `block-all-mixed-content`,
then replace the `img-src`/`default-src`/`connect-src` tokens with the token
followed by `https://<host>` — and leaves the value of every other header
unmodified (names are lowercased). In particular, on a CSP value containing
`block-all-mixed-content` and `img-src \x27self\x27`, the patched value no
longer contains `block-all-mixed-content` and contains
`img-src https://<host> \x27self\x27`. -/
theorem C6_csp_patcher (hs : List (String × String)) (host : String)
    (hnd : (hs.map (fun p => asciiLower p.1)).Nodup) :
    patchContentSecurity hs host = hs.map (fun p =>
      (asciiLower p.1,
       if hasSubstr (asciiLower p.1).data cspNameChars
       then cspRewriteSpec host p.2 else p.2))
    ∧ strContains (cspRewriteSpec "proxy.example.com" cspSampleValue)
        "block-all-mixed-content" = false
    ∧ strContains (cspRewriteSpec "proxy.example.com" cspSampleValue)
        ("img-src https://proxy.example.com \x27self\x27") = true := by
  refine ⟨?_, rfl, rfl⟩
  unfold patchContentSecurity
  rw [mkHeaders_eq_lowerMap hs hnd]
  have hkeys : (([] : List (String × String)).map Prod.fst ++
      (hs.map (fun p => (asciiLower p.1, p.2))).map Prod.fst).Nodup := by
    simpa [List.map_map, Function.comp] using hnd
  rw [headerLoop_eq_map host _ [] hkeys]
  simp only [List.nil_append, List.map_map]
  apply List.map_congr_left
  intro p _
  simp only [Function.comp]
  rw [asciiLower_idem, cspPatchValue_eq_spec]

/-- C6 witness: the patcher applied to a concrete two-header mapping. -/
theorem C6_csp_patcher_witness :
    (([("Content-Security-Policy", cspSampleValue), ("X-A", "1")] :
        List (String × String)).map (fun p => asciiLower p.1)).Nodup
    ∧ patchContentSecurity [("Content-Security-Policy", cspSampleValue), ("X-A", "1")]
        "proxy.example.com"
      = [("Content-Security-Policy", cspSampleValue), ("X-A", "1")].map (fun p =>
          (asciiLower p.1,
           if hasSubstr (asciiLower p.1).data cspNameChars
           then cspRewriteSpec "proxy.example.com" p.2 else p.2)) :=
  ⟨by decide, (C6_csp_patcher [("Content-Security-Policy", cspSampleValue), ("X-A", "1")]
      "proxy.example.com" (by decide)).1⟩

/-- C7 counterexample: with all three `x-image-lite-*` headers present and the
level header equal to `"0"`, the integer parse succeeds and yields 0, yet the
derived quality is 40 — because the code computes `parseInt(...) || 40` and 0
is falsy — contradicting the claim that 40 is used only when the parse fails. -/
theorem C7_level_zero_counterexample :
    deriveOptions levelZeroHeaders = { useWebp := true, grayscale := true, quality := 40 }
    ∧ objLookup levelZeroHeaders "x-image-lite-level" = some "0"
    ∧ parseIntJS "0" = some 0 :=
  ⟨rfl, rfl, rfl⟩

/-- C7 as amended: when the three headers are all present with non-empty
values (JavaScript truthiness), the options are `useWebp = (jpeg == "0")`,
`grayscale = (bw != "0")`, and quality the integer parse of the level header,
falling back to 40 when the parse fails or yields 0; otherwise the defaults
`useWebp=false, grayscale=true, quality=40` apply. -/
theorem C7_amended_options (hs : List (String × String)) :
    deriveOptions hs = optionsSpecAmended hs := by
  unfold deriveOptions optionsSpecAmended
  cases hbw : objLookup hs "x-image-lite-bw" with
  | none => simp [truthyOpt]
  | some bw =>
    cases hlvl : objLookup hs "x-image-lite-level" with
    | none => simp [truthyOpt]
    | some lvl =>
      cases hjpg : objLookup hs "x-image-lite-jpeg" with
      | none => simp [truthyOpt]
      | some jpg =>
        have hbeq : ∀ a b : String, (some a == some b) = (a == b) := fun _ _ => rfl
        have hbne : ∀ a b : String, (some a != some b) = (a != b) := fun _ _ => rfl
        by_cases hb : bw = "" <;> by_cases hl : lvl = "" <;> by_cases hj : jpg = "" <;>
          simp [truthyOpt, jsOrInt, hb, hl, hj, hbeq, hbne, bne]

/-- C7 witness: the amended derivation evaluated at a concrete header map. -/
theorem C7_amended_options_witness :
    deriveOptions levelBigHeaders = optionsSpecAmended levelBigHeaders :=
  C7_amended_options levelBigHeaders

/-- C9 counterexample: with a level header of `"500"` the derived quality is
500, outside the claimed range 1..100 — nothing clamps the parsed value. -/
theorem C9_quality_unclamped :
    (deriveOptions levelBigHeaders).quality = 500
    ∧ ¬((deriveOptions levelBigHeaders).quality ≤ 100) :=
  ⟨rfl, by decide⟩

/-- C9 as amended: the derived quality is either the default 40 (headers
missing/empty, parse failure, or a parsed 0) or exactly the nonzero integer
that `parseInt` extracted from the level header — which may lie anywhere in
the integers, not only in 1..100. -/
theorem C9_amended_quality (hs : List (String × String)) :
    (deriveOptions hs).quality = 40
    ∨ (∃ n : Int, parseIntJS ((objLookup hs "x-image-lite-level").getD "") = some n
        ∧ n ≠ 0 ∧ (deriveOptions hs).quality = n) := by
  unfold deriveOptions
  by_cases h : (truthyOpt (objLookup hs "x-image-lite-bw")
      && truthyOpt (objLookup hs "x-image-lite-level")
      && truthyOpt (objLookup hs "x-image-lite-jpeg")) = true
  · simp only [h, if_true]
    cases hp : parseIntJS ((objLookup hs "x-image-lite-level").getD "") with
    | none => left; simp [jsOrInt, hp]
    | some n =>
      by_cases hn : n = 0
      · left
        simp [jsOrInt, hp, hn]
      · right
        exact ⟨n, rfl, hn, by simp [jsOrInt, hn]⟩
  · simp [h]

/-- C8: the mangled-middlebox URL `http://1.1.1.1/bmi/http://example.com/a.jpg`
resolves — through assembly, the JSON-parse attempt and the prefix
normalization — to `http://example.com/a.jpg`; and in general the replacement
rewrites a leading `http://1.1.<digit>.<digit>/bmi/` prefix, together with an
optional following scheme, into a bare `http://`. -/
theorem C8_bmi_normalization :
    resolveURL "http://1.1.1.1/bmi/http://example.com/a.jpg" []
      = Except.ok "http://example.com/a.jpg"
    ∧ ∀ (d1 d2 : Char) (r : List Char), isDigitCh d1 = true → isDigitCh d2 = true →
        bmiReplaceL ("http://1.1.".data ++ d1 :: '.' :: d2 :: ("/bmi/".data ++ r))
          = "http://".data ++ stripOptScheme r := by
  constructor
  · rfl
  · intro d1 d2 r h1 h2
    exact bmiReplaceL_of_match _ _ (bmiMatchAt_pattern d1 d2 r h1 h2)

/-- C8 witness: the replacement applied at concrete digits and tail. -/
theorem C8_bmi_normalization_witness :
    isDigitCh '1' = true
    ∧ bmiReplaceL ("http://1.1.".data ++ '1' :: '.' :: '1' :: ("/bmi/".data ++ "x.jpg".data))
      = "http://".data ++ stripOptScheme "x.jpg".data :=
  ⟨rfl, C8_bmi_normalization.2 '1' '1' "x.jpg".data rfl rfl⟩

/-- C10: every header name in the mapping produced by the Header Patcher is
fully lowercase — the patcher re-normalizes its input through the `Headers`
constructor, whose names are ASCII-lowercased, before iterating — regardless
of the casing of the input names. -/
theorem C10_patched_names_lowercase (hs : List (String × String)) (host : String)
    (p : String × String) (hp : p ∈ patchContentSecurity hs host) :
    asciiLower p.1 = p.1 := by
  have hk : p.1 ∈ (patchContentSecurity hs host).map Prod.fst :=
    List.mem_map_of_mem Prod.fst hp
  unfold patchContentSecurity at hk
  refine headerLoop_keys_lower host (mkHeaders hs) [] p.1 (by simp) ?_ hk
  intro k' hk'
  exact mkHeadersAux_keys_lower hs [] k' (by simp) hk'

/-- C10 witness: a mixed-case input name comes out lowercased. -/
theorem C10_patched_names_lowercase_witness :
    ("x-a", "1") ∈ patchContentSecurity [("X-A", "1")] "h"
    ∧ asciiLower ("x-a", "1").1 = ("x-a", "1").1 :=
  ⟨by decide, C10_patched_names_lowercase [("X-A", "1")] "h" ("x-a", "1") (by decide)⟩

/-- C9 witness: the amended quality characterization at a concrete header map. -/
theorem C9_amended_quality_witness :
    (deriveOptions levelBigHeaders).quality = 40
    ∨ (∃ n : Int, parseIntJS ((objLookup levelBigHeaders "x-image-lite-level").getD "")
        = some n ∧ n ≠ 0 ∧ (deriveOptions levelBigHeaders).quality = n) :=
  C9_amended_quality levelBigHeaders
